import Mathlib

/-!
# PBRExplorer — verification of the spec'd claims

Shallow embedding of the PBRExplorer repository (a browser-based PBR
material preview tool).  The repository has two parallel implementations:
a component-based version (`src/App.tsx` plus `MaterialViewer`) and a
vanilla DOM/script version.  We embed the pure logic both versions share:

* filename → texture-role classification (`matchTextureType`),
* the drag-and-drop file handler (`handleFiles`),
* slot reset (`resetTexture`),
* geometry selection (`updateGeometry` / the `Geometry` memo),
* effective material parameter computation,
* the numeric input clamping of the vanilla UI (`initUI`).

Filenames are modelled as lists of Unicode code points (`List Nat`);
JavaScript `toLowerCase` becomes the pointwise ASCII lowering map,
`String.prototype.includes` becomes a contiguous-sublist check.
Numeric parameters (sliders) are modelled as rationals.
Browser object URLs and loaded textures are modelled as opaque `Nat`
identifiers carried by the dropped file; "releasing" an asset
(`URL.revokeObjectURL` / `Texture.dispose`) is modelled by recording the
released identifier in an output list.  The vanilla texture loader's
asynchronous callback is modelled as completing immediately (the spec's
single-threaded event-loop idealization).
-/

/-- The six texture roles of `TextureMapType` in `src/types`. -/
inductive TextureMapType where
  | map
  | normalMap
  | roughnessMap
  | metalnessMap
  | aoMap
  | displacementMap
deriving DecidableEq, Repr

/-- JavaScript `c.toLowerCase()` on a single code point, restricted to the
ASCII range actually exercised by the classifier's keywords. -/
def lowerCode (n : Nat) : Nat :=
  if 65 ≤ n ∧ n ≤ 90 then n + 32 else n

/-- JavaScript `filename.toLowerCase()` over the code-point model. -/
def lowerStr (s : List Nat) : List Nat :=
  s.map lowerCode

/-- Whether `needle` is a prefix of `hay` (code-point lists). -/
def isPrefAt : List Nat → List Nat → Bool
  | [], _ => true
  | _ :: _, [] => false
  | a :: as, b :: bs => a == b && isPrefAt as bs

/-- JavaScript `hay.includes(needle)`: `needle` occurs as a contiguous
substring of `hay`. -/
def containsKw (needle : List Nat) : List Nat → Bool
  | [] => needle.isEmpty
  | hay@(_ :: rest) => isPrefAt needle hay || containsKw needle rest

/-- Code points of a (lowercase ASCII) keyword literal. -/
def kw (s : String) : List Nat :=
  s.toList.map Char.toNat

/-- The `matchTextureType` of `src/App.tsx` (component-based version):
lowercase the filename, then check the keyword groups in source order. -/
def matchTextureType_app (filename : List Nat) : Option TextureMapType :=
  let f := lowerStr filename
  if containsKw (kw ("albedo")) f || containsKw (kw ("diffuse")) f ||
     containsKw (kw ("basecolor")) f || containsKw (kw ("color")) f then some .map
  else if containsKw (kw ("normal")) f || containsKw (kw ("nrm")) f ||
     containsKw (kw ("nm")) f then some .normalMap
  else if containsKw (kw ("roughness")) f || containsKw (kw ("rough")) f ||
     containsKw (kw ("rgh")) f then some .roughnessMap
  else if containsKw (kw ("metal")) f || containsKw (kw ("mtl")) f then some .metalnessMap
  else if containsKw (kw ("ao")) f || containsKw (kw ("ambientocclusion")) f ||
     containsKw (kw ("occlusion")) f then some .aoMap
  else if containsKw (kw ("height")) f || containsKw (kw ("displacement")) f ||
     containsKw (kw ("disp")) f then some .displacementMap
  else none

/-- The `matchTextureType` of the vanilla DOM version (same body, duplicated
in the script file). -/
def matchTextureType_vanilla (filename : List Nat) : Option TextureMapType :=
  let f := lowerStr filename
  if containsKw (kw ("albedo")) f || containsKw (kw ("diffuse")) f ||
     containsKw (kw ("basecolor")) f || containsKw (kw ("color")) f then some .map
  else if containsKw (kw ("normal")) f || containsKw (kw ("nrm")) f ||
     containsKw (kw ("nm")) f then some .normalMap
  else if containsKw (kw ("roughness")) f || containsKw (kw ("rough")) f ||
     containsKw (kw ("rgh")) f then some .roughnessMap
  else if containsKw (kw ("metal")) f || containsKw (kw ("mtl")) f then some .metalnessMap
  else if containsKw (kw ("ao")) f || containsKw (kw ("ambientocclusion")) f ||
     containsKw (kw ("occlusion")) f then some .aoMap
  else if containsKw (kw ("height")) f || containsKw (kw ("displacement")) f ||
     containsKw (kw ("disp")) f then some .displacementMap
  else none

/-- The keyword groups in the fixed order the spec describes, each with the
texture role it classifies to. -/
def keywordGroups : List (List (List Nat) × TextureMapType) :=
  [ ([kw ("albedo"), kw ("diffuse"), kw ("basecolor"), kw ("color")], .map),
    ([kw ("normal"), kw ("nrm"), kw ("nm")], .normalMap),
    ([kw ("roughness"), kw ("rough"), kw ("rgh")], .roughnessMap),
    ([kw ("metal"), kw ("mtl")], .metalnessMap),
    ([kw ("ao"), kw ("ambientocclusion"), kw ("occlusion")], .aoMap),
    ([kw ("height"), kw ("displacement"), kw ("disp")], .displacementMap) ]

/-- Spec-side classifier: the role of the first keyword group with at least
one keyword occurring in the lowercased filename, `none` otherwise. -/
def specFirstGroupMatch (filename : List Nat) : Option TextureMapType :=
  (keywordGroups.find? fun g =>
      g.1.any fun k => containsKw k (lowerStr filename)).map Prod.snd

/-- Six named slots, one per `TextureMapType`; the payload type differs
between the two implementations (`TextureData` vs a loaded texture). -/
structure Slots (α : Type) where
  map : Option α
  normalMap : Option α
  roughnessMap : Option α
  metalnessMap : Option α
  aoMap : Option α
  displacementMap : Option α
deriving DecidableEq, Repr

/-- Read the slot named by `t` (the `material[type]` indexing). -/
def Slots.get (m : Slots α) : TextureMapType → Option α
  | .map => m.map
  | .normalMap => m.normalMap
  | .roughnessMap => m.roughnessMap
  | .metalnessMap => m.metalnessMap
  | .aoMap => m.aoMap
  | .displacementMap => m.displacementMap

/-- Write the slot named by `t` (the `material[type] = v` assignment). -/
def Slots.set (m : Slots α) (t : TextureMapType) (v : Option α) : Slots α :=
  match t with
  | .map => { m with map := v }
  | .normalMap => { m with normalMap := v }
  | .roughnessMap => { m with roughnessMap := v }
  | .metalnessMap => { m with metalnessMap := v }
  | .aoMap => { m with aoMap := v }
  | .displacementMap => { m with displacementMap := v }

/-- All six slots empty (the initial `material` state in both versions). -/
def Slots.empty : Slots α :=
  ⟨none, none, none, none, none, none⟩

theorem Slots.get_set_same (m : Slots α) (t : TextureMapType) (v : Option α) :
    (m.set t v).get t = v := by
  cases t <;> rfl

theorem Slots.get_set_other (m : Slots α) {t t' : TextureMapType} (v : Option α)
    (h : t' ≠ t) : (m.set t v).get t' = m.get t' := by
  cases t <;> cases t' <;> first | rfl | exact absurd rfl h

/-- A dropped browser `File` in the model: its `name` (code points) and the
opaque identifier `URL.createObjectURL(file)` returns for it (also used as
the identity of the texture the vanilla loader decodes from that URL). -/
structure DroppedFile where
  name : List Nat
  url : Nat
deriving DecidableEq, Repr

/-- The `TextureData` record of `src/types`: object URL plus filename. -/
structure TextureData where
  url : Nat
  name : List Nat
deriving DecidableEq, Repr

/-- Geometry kind, `ShapeType` of `src/types` (closed union). -/
inductive ShapeType where
  | cube
  | sphere
  | plane
deriving DecidableEq, Repr

/-- The `ViewerSettings` record of `src/types` (numbers as rationals). -/
structure ViewerSettings where
  shape : ShapeType
  tiling : ℚ
  displacementScale : ℚ
  exposure : ℚ
  roughness : ℚ
  metalness : ℚ
deriving DecidableEq, Repr

/-- Component-version application state: `material` and `settings`. -/
structure AppState where
  material : Slots TextureData
  settings : ViewerSettings
deriving DecidableEq, Repr

/-- One iteration of the `forEach` body of `handleFiles` in `src/App.tsx`:
classify the file; on a match, revoke the occupying slot's object URL (if
any) and store the new `TextureData`.  The second component accumulates the
URLs passed to `URL.revokeObjectURL`. -/
def handleFilesStep_app (acc : Slots TextureData × List Nat) (file : DroppedFile) :
    Slots TextureData × List Nat :=
  match matchTextureType_app file.name with
  | none => acc
  | some t =>
    let revoked :=
      match acc.1.get t with
      | some td => acc.2 ++ [td.url]
      | none => acc.2
    (acc.1.set t (some ⟨file.url, file.name⟩), revoked)

/-- The `handleFiles` of `src/App.tsx`: fold the step over the dropped file
list, starting from the current material; returns the new material and the
revoked object URLs. -/
def handleFiles_app (material : Slots TextureData) (files : List DroppedFile) :
    Slots TextureData × List Nat :=
  files.foldl handleFilesStep_app (material, [])

/-- The `resetTexture` of `src/App.tsx`: if the slot is occupied, revoke its
object URL and set it to `null`; `setMaterial` touches only `material`, so
`settings` is copied unchanged. -/
def resetTexture_app (st : AppState) (t : TextureMapType) : AppState × List Nat :=
  match st.material.get t with
  | some td => ({ st with material := st.material.set t none }, [td.url])
  | none => (st, [])

/-- Vanilla-version state: loaded textures per slot (opaque identifiers),
the `textureFiles` record, and the settings (shape as a raw DOM string). -/
structure VanState where
  material : Slots Nat
  textureFiles : Slots DroppedFile
  shape : String
  tiling : ℚ
  displacementScale : ℚ
  exposure : ℚ
  roughness : ℚ
  metalness : ℚ
deriving DecidableEq, Repr

/-- One iteration of the `forEach` body of the vanilla `handleFiles`:
classify; on a match, dispose the texture occupying the slot (if any), then
load the file's object URL — the loader callback (modelled as immediate)
stores the texture and the file.  The second component accumulates disposed
texture identifiers. -/
def handleFilesStep_vanilla (acc : VanState × List Nat) (file : DroppedFile) :
    VanState × List Nat :=
  match matchTextureType_vanilla file.name with
  | none => acc
  | some t =>
    let disposed :=
      match acc.1.material.get t with
      | some tex => acc.2 ++ [tex]
      | none => acc.2
    ({ acc.1 with
        material := acc.1.material.set t (some file.url),
        textureFiles := acc.1.textureFiles.set t (some file) }, disposed)

/-- The vanilla `handleFiles` over a dropped batch. -/
def handleFiles_vanilla (st : VanState) (files : List DroppedFile) :
    VanState × List Nat :=
  files.foldl handleFilesStep_vanilla (st, [])

/-- The vanilla `resetTexture`: if the slot's texture exists, dispose it and
null out both `material[type]` and `textureFiles[type]`. -/
def resetTexture_vanilla (st : VanState) (t : TextureMapType) : VanState × List Nat :=
  match st.material.get t with
  | some tex =>
    ({ st with material := st.material.set t none,
               textureFiles := st.textureFiles.set t none }, [tex])
  | none => (st, [])

/-- A constructed geometry object with the constructor arguments used in
the source (`THREE.SphereGeometry` / `PlaneGeometry` / `BoxGeometry`). -/
inductive Geometry where
  | sphereGeometry (radius : ℚ) (widthSegments heightSegments : Nat)
  | planeGeometry (width height : ℚ) (widthSegments heightSegments : Nat)
  | boxGeometry (width height depth : ℚ) (widthSegments heightSegments depthSegments : Nat)
deriving DecidableEq, Repr

/-- The `Geometry` memo of `PBRMeshInternal` (component version): switch on
`settings.shape` with `cube` falling through to the default box branch. -/
def geometryOf_app : ShapeType → Geometry
  | .sphere => .sphereGeometry 1 128 128
  | .plane => .planeGeometry 2 2 512 512
  | .cube => .boxGeometry (3/2) (3/2) (3/2) 128 128 128

/-- The `updateGeometry` of the vanilla version: switch on the raw
`state.settings.shape` string; `'cube'` and every other value take the
default box branch. -/
def geometryOf_vanilla (shape : String) : Geometry :=
  match shape with
  | "sphere" => .sphereGeometry 1 128 128
  | "plane" => .planeGeometry 2 2 512 512
  | _ => .boxGeometry (3/2) (3/2) (3/2) 128 128 128

/-- The numeric parameters configured on the rendered
`MeshStandardMaterial`. -/
structure MatParams where
  displacementScale : ℚ
  roughness : ℚ
  metalness : ℚ
deriving DecidableEq, Repr

/-- Parameters the component version (`PBRMeshInternal`) configures:
roughness and metalness are forced to `1` when the corresponding map is
loaded, else taken from settings. -/
def matParams_app (material : Slots TextureData) (settings : ViewerSettings) : MatParams :=
  { displacementScale := settings.displacementScale,
    roughness := if (material.roughnessMap).isSome then 1 else settings.roughness,
    metalness := if (material.metalnessMap).isSome then 1 else settings.metalness }

/-- Parameters the vanilla `updateMaterial` configures: always the raw
settings values, regardless of loaded maps. -/
def matParams_vanilla (st : VanState) : MatParams :=
  { displacementScale := st.displacementScale,
    roughness := st.roughness,
    metalness := st.metalness }

/-- The `val = Math.max(min, Math.min(max, val))` clamp of the vanilla
text-input handler. -/
def clampVal (lo hi v : ℚ) : ℚ :=
  max lo (min hi v)

/-- One UI event on a numeric parameter in the vanilla version: a slider
`input` event (the browser guarantees a range input's value), or a text
`input` event (`none` models a value whose `parseFloat` is `NaN`). -/
inductive ParamEvent where
  | slider (v : ℚ)
  | textInput (v : Option ℚ)
deriving DecidableEq, Repr

/-- The stored parameter after one event, per the `initUI` handlers: a
slider event stores the slider value as-is; a text-input event returns
early on `NaN` and otherwise clamps to the slider's `[lo, hi]`. -/
def paramStep (lo hi cur : ℚ) : ParamEvent → ℚ
  | .slider v => v
  | .textInput none => cur
  | .textInput (some v) => clampVal lo hi v

/-- The stored parameter after a sequence of events. -/
def runParamEvents (lo hi init : ℚ) (events : List ParamEvent) : ℚ :=
  events.foldl (paramStep lo hi) init

/-- Spec-side helper: the last file of the batch whose name classifies to
slot `t`, if any. -/
def lastMatchingFile (t : TextureMapType) : List DroppedFile → Option DroppedFile
  | [] => none
  | file :: rest =>
    match lastMatchingFile t rest with
    | some g => some g
    | none => if matchTextureType_app file.name = some t then some file else none

/-- The initial component-version state (`useState` initializers of
`src/App.tsx`). -/
def initialAppState : AppState :=
  ⟨Slots.empty, ⟨ShapeType.cube, 1, 1/20, 1, 1, 0⟩⟩

/-- The initial vanilla-version state (the `state` literal of the script). -/
def initialVanState : VanState :=
  ⟨Slots.empty, Slots.empty, "cube", 1, 1/20, 1, 1, 0⟩

/-! ## Helper lemmas -/

theorem handleFilesStep_app_unmatched (acc : Slots TextureData × List Nat)
    (file : DroppedFile) (h : matchTextureType_app file.name = none) :
    handleFilesStep_app acc file = acc := by
  simp [handleFilesStep_app, h]

theorem handleFilesStep_vanilla_unmatched (acc : VanState × List Nat)
    (file : DroppedFile) (h : matchTextureType_vanilla file.name = none) :
    handleFilesStep_vanilla acc file = acc := by
  simp [handleFilesStep_vanilla, h]

theorem handleFilesStep_app_matched (m : Slots TextureData) (rev : List Nat)
    (file : DroppedFile) (t : TextureMapType)
    (h : matchTextureType_app file.name = some t) :
    handleFilesStep_app (m, rev) file =
      (m.set t (some ⟨file.url, file.name⟩),
        match m.get t with
        | some td => rev ++ [td.url]
        | none => rev) := by
  simp [handleFilesStep_app, h]

theorem handleFilesStep_vanilla_matched (st : VanState) (dis : List Nat)
    (file : DroppedFile) (t : TextureMapType)
    (h : matchTextureType_vanilla file.name = some t) :
    handleFilesStep_vanilla (st, dis) file =
      ({ st with material := st.material.set t (some file.url),
                 textureFiles := st.textureFiles.set t (some file) },
        match st.material.get t with
        | some tex => dis ++ [tex]
        | none => dis) := by
  simp [handleFilesStep_vanilla, h]

theorem foldl_app_get (files : List DroppedFile) :
    ∀ (m : Slots TextureData) (rev : List Nat) (t : TextureMapType),
      (files.foldl handleFilesStep_app (m, rev)).1.get t =
        match lastMatchingFile t files with
        | some file => some ⟨file.url, file.name⟩
        | none => m.get t := by
  induction files with
  | nil => intro m rev t; rfl
  | cons f fs ih =>
    intro m rev t
    rw [List.foldl_cons]
    cases h : matchTextureType_app f.name with
    | none =>
      rw [handleFilesStep_app_unmatched _ _ h, ih]
      cases hl : lastMatchingFile t fs <;> simp [lastMatchingFile, hl, h]
    | some t' =>
      rw [handleFilesStep_app_matched _ _ _ _ h, ih]
      by_cases ht : t' = t
      · subst ht
        cases hl : lastMatchingFile t' fs <;>
          simp [lastMatchingFile, hl, h, Slots.get_set_same]
      · cases hl : lastMatchingFile t fs <;>
          simp [lastMatchingFile, hl, h, ht, Slots.get_set_other _ _ (Ne.symm ht)]

theorem foldl_vanilla_get (files : List DroppedFile) :
    ∀ (st : VanState) (dis : List Nat) (t : TextureMapType),
      ((files.foldl handleFilesStep_vanilla (st, dis)).1.material.get t =
        match lastMatchingFile t files with
        | some file => some file.url
        | none => st.material.get t) ∧
      ((files.foldl handleFilesStep_vanilla (st, dis)).1.textureFiles.get t =
        match lastMatchingFile t files with
        | some file => some file
        | none => st.textureFiles.get t) := by
  induction files with
  | nil => intro st dis t; exact ⟨rfl, rfl⟩
  | cons f fs ih =>
    intro st dis t
    rw [List.foldl_cons]
    cases h : matchTextureType_vanilla f.name with
    | none =>
      have h' : matchTextureType_app f.name = none := h
      rw [handleFilesStep_vanilla_unmatched _ _ h]
      refine ⟨((ih st dis t).1).trans ?_, ((ih st dis t).2).trans ?_⟩ <;>
        (cases hl : lastMatchingFile t fs <;> simp [lastMatchingFile, hl, h'])
    | some t' =>
      have h' : matchTextureType_app f.name = some t' := h
      rw [handleFilesStep_vanilla_matched _ _ _ _ h]
      refine ⟨((ih _ _ t).1).trans ?_, ((ih _ _ t).2).trans ?_⟩
      · by_cases ht : t' = t
        · subst ht
          cases hl : lastMatchingFile t' fs <;>
            simp [lastMatchingFile, hl, h', Slots.get_set_same]
        · cases hl : lastMatchingFile t fs <;>
            simp [lastMatchingFile, hl, h', ht, Slots.get_set_other _ _ (Ne.symm ht)]
      · by_cases ht : t' = t
        · subst ht
          cases hl : lastMatchingFile t' fs <;>
            simp [lastMatchingFile, hl, h', Slots.get_set_same]
        · cases hl : lastMatchingFile t fs <;>
            simp [lastMatchingFile, hl, h', ht, Slots.get_set_other _ _ (Ne.symm ht)]

theorem foldl_app_rev_mono (files : List DroppedFile) :
    ∀ (m : Slots TextureData) (rev : List Nat) (x : Nat), x ∈ rev →
      x ∈ (files.foldl handleFilesStep_app (m, rev)).2 := by
  induction files with
  | nil => intro m rev x hx; exact hx
  | cons f fs ih =>
    intro m rev x hx
    rw [List.foldl_cons]
    cases h : matchTextureType_app f.name with
    | none =>
      rw [handleFilesStep_app_unmatched _ _ h]
      exact ih m rev x hx
    | some t' =>
      rw [handleFilesStep_app_matched _ _ _ _ h]
      cases hget : m.get t' with
      | none => exact ih _ _ x hx
      | some td => exact ih _ _ x (List.mem_append_left _ hx)

theorem foldl_vanilla_dis_mono (files : List DroppedFile) :
    ∀ (st : VanState) (dis : List Nat) (x : Nat), x ∈ dis →
      x ∈ (files.foldl handleFilesStep_vanilla (st, dis)).2 := by
  induction files with
  | nil => intro st dis x hx; exact hx
  | cons f fs ih =>
    intro st dis x hx
    rw [List.foldl_cons]
    cases h : matchTextureType_vanilla f.name with
    | none =>
      rw [handleFilesStep_vanilla_unmatched _ _ h]
      exact ih st dis x hx
    | some t' =>
      rw [handleFilesStep_vanilla_matched _ _ _ _ h]
      cases hget : st.material.get t' with
      | none => exact ih _ _ x hx
      | some tex => exact ih _ _ x (List.mem_append_left _ hx)

theorem foldl_app_revokes (files : List DroppedFile) :
    ∀ (m : Slots TextureData) (rev : List Nat) (t : TextureMapType) (td : TextureData),
      m.get t = some td →
      (∃ file ∈ files, matchTextureType_app file.name = some t) →
      td.url ∈ (files.foldl handleFilesStep_app (m, rev)).2 := by
  induction files with
  | nil =>
    rintro m rev t td _ ⟨file, hf, _⟩
    exact absurd hf (List.not_mem_nil _)
  | cons f fs ih =>
    rintro m rev t td hocc ⟨file, hf, hmatch⟩
    rw [List.foldl_cons]
    cases h : matchTextureType_app f.name with
    | none =>
      rw [handleFilesStep_app_unmatched _ _ h]
      refine ih m rev t td hocc ⟨file, ?_, hmatch⟩
      rcases List.mem_cons.mp hf with rfl | hf'
      · rw [h] at hmatch; cases hmatch
      · exact hf'
    | some t' =>
      rw [handleFilesStep_app_matched _ _ _ _ h]
      by_cases ht : t' = t
      · subst ht
        rw [hocc]
        exact foldl_app_rev_mono fs _ _ td.url (List.mem_append_right _ (by simp))
      · have hocc' : (m.set t' (some ⟨f.url, f.name⟩)).get t = some td := by
          rw [Slots.get_set_other _ _ (Ne.symm ht)]; exact hocc
        refine ih _ _ t td hocc' ⟨file, ?_, hmatch⟩
        rcases List.mem_cons.mp hf with rfl | hf'
        · rw [h] at hmatch
          injection hmatch with he
          exact absurd he ht
        · exact hf'

theorem foldl_vanilla_disposes (files : List DroppedFile) :
    ∀ (st : VanState) (dis : List Nat) (t : TextureMapType) (tex : Nat),
      st.material.get t = some tex →
      (∃ file ∈ files, matchTextureType_vanilla file.name = some t) →
      tex ∈ (files.foldl handleFilesStep_vanilla (st, dis)).2 := by
  induction files with
  | nil =>
    rintro st dis t tex _ ⟨file, hf, _⟩
    exact absurd hf (List.not_mem_nil _)
  | cons f fs ih =>
    rintro st dis t tex hocc ⟨file, hf, hmatch⟩
    rw [List.foldl_cons]
    cases h : matchTextureType_vanilla f.name with
    | none =>
      rw [handleFilesStep_vanilla_unmatched _ _ h]
      refine ih st dis t tex hocc ⟨file, ?_, hmatch⟩
      rcases List.mem_cons.mp hf with rfl | hf'
      · rw [h] at hmatch; cases hmatch
      · exact hf'
    | some t' =>
      rw [handleFilesStep_vanilla_matched _ _ _ _ h]
      by_cases ht : t' = t
      · subst ht
        rw [hocc]
        exact foldl_vanilla_dis_mono fs _ _ tex (List.mem_append_right _ (by simp))
      · have hocc' : ({ st with
            material := st.material.set t' (some f.url),
            textureFiles := st.textureFiles.set t' (some f) } : VanState).material.get t =
            some tex := by
          show (st.material.set t' (some f.url)).get t = some tex
          rw [Slots.get_set_other _ _ (Ne.symm ht)]; exact hocc
        refine ih _ _ t tex hocc' ⟨file, ?_, hmatch⟩
        rcases List.mem_cons.mp hf with rfl | hf'
        · rw [h] at hmatch
          injection hmatch with he
          exact absurd he ht
        · exact hf'

theorem foldl_app_all_unmatched (files : List DroppedFile)
    (hall : ∀ f ∈ files, matchTextureType_app f.name = none) :
    ∀ (m : Slots TextureData) (rev : List Nat),
      files.foldl handleFilesStep_app (m, rev) = (m, rev) := by
  induction files with
  | nil => intro m rev; rfl
  | cons f fs ih =>
    intro m rev
    rw [List.foldl_cons,
      handleFilesStep_app_unmatched _ _ (hall f (List.mem_cons_self _ _))]
    exact ih (fun g hg => hall g (List.mem_cons_of_mem _ hg)) m rev

theorem foldl_vanilla_all_unmatched (files : List DroppedFile)
    (hall : ∀ f ∈ files, matchTextureType_vanilla f.name = none) :
    ∀ (st : VanState) (dis : List Nat),
      files.foldl handleFilesStep_vanilla (st, dis) = (st, dis) := by
  induction files with
  | nil => intro st dis; rfl
  | cons f fs ih =>
    intro st dis
    rw [List.foldl_cons,
      handleFilesStep_vanilla_unmatched _ _ (hall f (List.mem_cons_self _ _))]
    exact ih (fun g hg => hall g (List.mem_cons_of_mem _ hg)) st dis

theorem matchTextureType_app_eq_spec (f : List Nat) :
    matchTextureType_app f = specFirstGroupMatch f := by
  simp only [matchTextureType_app, specFirstGroupMatch, keywordGroups, List.find?,
    List.any_cons, List.any_nil, Bool.or_false, Bool.or_assoc]
  repeat' split <;> (try rfl) <;> (try simp_all)

theorem lowerCode_idem (n : Nat) : lowerCode (lowerCode n) = lowerCode n := by
  unfold lowerCode
  repeat' split
  all_goals omega

theorem lowerStr_idem (s : List Nat) : lowerStr (lowerStr s) = lowerStr s := by
  unfold lowerStr
  rw [List.map_map]
  exact List.map_congr_left fun n _ => lowerCode_idem n

/-! ## Claims -/

/-- C1: `matchTextureType` returns the texture role of the first keyword
group — in the fixed order albedo/diffuse/basecolor/color, normal/nrm/nm,
roughness/rough/rgh, metal/mtl, ao/ambientocclusion/occlusion,
height/displacement/disp — with at least one keyword occurring as a
substring of the lowercased filename; it returns `none` exactly when no
keyword of any group occurs; and every non-`none` result is one of the six
slot names. -/
theorem C1_classifier_first_group (f : List Nat) :
    matchTextureType_app f = specFirstGroupMatch f ∧
    (matchTextureType_app f = none ↔
      ∀ g ∈ keywordGroups, ∀ k ∈ g.1, containsKw k (lowerStr f) = false) ∧
    (∀ t, matchTextureType_app f = some t →
      t ∈ [TextureMapType.map, .normalMap, .roughnessMap, .metalnessMap, .aoMap,
           .displacementMap]) := by
  refine ⟨matchTextureType_app_eq_spec f, ?_, ?_⟩
  · rw [matchTextureType_app_eq_spec f, specFirstGroupMatch, Option.map_eq_none',
      List.find?_eq_none]
    simp only [Bool.not_eq_true, List.any_eq_false]
  · intro t _
    cases t <;> simp

/-- C1 witness: the classifier applied to a concrete filename, every
implication of the claim theorem discharged there. -/
theorem C1_classifier_first_group_witness :
    matchTextureType_app (kw ("Brick_Diffuse.jpg")) =
      specFirstGroupMatch (kw ("Brick_Diffuse.jpg")) ∧
    TextureMapType.map ∈ [TextureMapType.map, .normalMap, .roughnessMap,
      .metalnessMap, .aoMap, .displacementMap] :=
  ⟨(C1_classifier_first_group (kw ("Brick_Diffuse.jpg"))).1,
   (C1_classifier_first_group (kw ("Brick_Diffuse.jpg"))).2.2 .map (by decide)⟩

/-- C2: the filename classifiers of the two parallel implementations agree
on every filename. -/
theorem C2_classifiers_equivalent (f : List Nat) :
    matchTextureType_app f = matchTextureType_vanilla f := rfl

/-- C10: the classifier is case-insensitive — applying it to the lowercased
filename gives the same result, in both implementations. -/
theorem C10_classifier_case_insensitive (f : List Nat) :
    matchTextureType_app (lowerStr f) = matchTextureType_app f ∧
    matchTextureType_vanilla (lowerStr f) = matchTextureType_vanilla f := by
  constructor <;> simp only [matchTextureType_app, matchTextureType_vanilla, lowerStr_idem]

/-- C4: unmatched filenames are silently ignored.  Dropping a file whose
name matches no keyword group changes nothing: removing it from any
position of the batch leaves the result of `handleFiles` (new slots and
released assets) unchanged, in both versions; a batch of only unmatched
files leaves the state exactly as it was and releases nothing.
`handleFiles` is a total function in this embedding — it signals no
failure on any input file list. -/
theorem C4_unmatched_files_ignored (material : Slots TextureData) (vst : VanState)
    (files1 files2 files : List DroppedFile) (file : DroppedFile)
    (h : matchTextureType_app file.name = none) :
    handleFiles_app material (files1 ++ file :: files2) =
      handleFiles_app material (files1 ++ files2) ∧
    handleFiles_vanilla vst (files1 ++ file :: files2) =
      handleFiles_vanilla vst (files1 ++ files2) ∧
    ((∀ f ∈ files, matchTextureType_app f.name = none) →
      handleFiles_app material files = (material, []) ∧
      handleFiles_vanilla vst files = (vst, [])) := by
  have hv : matchTextureType_vanilla file.name = none := h
  refine ⟨?_, ?_, fun hall => ⟨foldl_app_all_unmatched files hall material [],
    foldl_vanilla_all_unmatched files (fun f hf => hall f hf) vst []⟩⟩
  · unfold handleFiles_app
    rw [List.foldl_append, List.foldl_append, List.foldl_cons,
      handleFilesStep_app_unmatched _ _ h]
  · unfold handleFiles_vanilla
    rw [List.foldl_append, List.foldl_append, List.foldl_cons,
      handleFilesStep_vanilla_unmatched _ _ hv]

/-- C4 witness: a concrete unmatched filename is ignored. -/
theorem C4_unmatched_files_ignored_witness :
    handleFiles_app Slots.empty [⟨kw ("photo.png"), 3⟩] =
      handleFiles_app Slots.empty [] :=
  (C4_unmatched_files_ignored Slots.empty initialVanState [] [] []
    ⟨kw ("photo.png"), 3⟩ (by decide)).1

/-- C5: each slot holds at most one asset (it is an `Option` in the state).
After `handleFiles` over a batch, a slot holds the last file of the batch
that classifies to it (its object URL / loaded texture, and in the vanilla
version also the file record), or keeps its previous content if no file
matches; and when a file is assigned to an occupied slot, the previously
held asset — the object URL in the component version, the loaded texture
in the vanilla version — is among the released ones. -/
theorem C5_at_most_one_asset_per_slot (m : Slots TextureData) (vst : VanState)
    (files : List DroppedFile) (t : TextureMapType) :
    ((handleFiles_app m files).1.get t =
      match lastMatchingFile t files with
      | some file => some ⟨file.url, file.name⟩
      | none => m.get t) ∧
    ((handleFiles_vanilla vst files).1.material.get t =
      match lastMatchingFile t files with
      | some file => some file.url
      | none => vst.material.get t) ∧
    ((handleFiles_vanilla vst files).1.textureFiles.get t =
      match lastMatchingFile t files with
      | some file => some file
      | none => vst.textureFiles.get t) ∧
    (∀ td, m.get t = some td →
      (∃ file ∈ files, matchTextureType_app file.name = some t) →
      td.url ∈ (handleFiles_app m files).2) ∧
    (∀ tex, vst.material.get t = some tex →
      (∃ file ∈ files, matchTextureType_vanilla file.name = some t) →
      tex ∈ (handleFiles_vanilla vst files).2) :=
  ⟨foldl_app_get files m [] t,
   (foldl_vanilla_get files vst [] t).1,
   (foldl_vanilla_get files vst [] t).2,
   fun td hocc hex => foldl_app_revokes files m [] t td hocc hex,
   fun tex hocc hex => foldl_vanilla_disposes files vst [] t tex hocc hex⟩

/-- C5 witness: dropping a matching file onto an occupied albedo slot
releases the old object URL. -/
theorem C5_at_most_one_asset_per_slot_witness :
    (5 : Nat) ∈ (handleFiles_app
      (Slots.empty.set .map (some ⟨5, kw ("old_color.png")⟩))
      [⟨kw ("new_albedo.png"), 8⟩]).2 :=
  (C5_at_most_one_asset_per_slot
      (Slots.empty.set .map (some ⟨5, kw ("old_color.png")⟩))
      initialVanState [⟨kw ("new_albedo.png"), 8⟩] .map).2.2.2.1
    ⟨5, kw ("old_color.png")⟩ rfl
    ⟨⟨kw ("new_albedo.png"), 8⟩, by decide, by decide⟩

/-- C3 counterexample: with a roughness map loaded in both versions and the
roughness setting at `0`, the component version configures roughness `1`
while the vanilla version configures `0`; the configured parameters differ,
so the two implementations do not apply the parameters identically. -/
theorem C3_counterexample :
    matParams_app
        (Slots.empty.set .roughnessMap (some ⟨0, kw ("stone_roughness.png")⟩))
        ⟨ShapeType.cube, 1, 1/20, 1, 0, 0⟩ ≠
      matParams_vanilla
        ⟨Slots.empty.set .roughnessMap (some 0), Slots.empty, "cube", 1, 1/20, 1, 0, 0⟩ := by
  intro h
  have h1 : (matParams_app
      (Slots.empty.set .roughnessMap (some ⟨0, kw ("stone_roughness.png")⟩))
      ⟨ShapeType.cube, 1, 1/20, 1, 0, 0⟩).roughness = 1 := rfl
  have h2 : (matParams_vanilla
      ⟨Slots.empty.set .roughnessMap (some 0), Slots.empty, "cube", 1, 1/20, 1, 0, 0⟩).roughness = 0 := rfl
  rw [h] at h1
  rw [h2] at h1
  exact one_ne_zero h1.symm

/-- C3 (amended): given agreeing settings, the two versions configure the
same displacement scale; they configure the same roughness (resp.
metalness) exactly when no roughness (resp. metalness) map is loaded, in
which case both use the settings value; when such a map is loaded the
component version forces the value to `1` while the vanilla version still
uses the settings value. -/
theorem C3_params_agree_without_maps (m : Slots TextureData) (s : ViewerSettings)
    (st : VanState)
    (hd : st.displacementScale = s.displacementScale)
    (hr : st.roughness = s.roughness) (hm : st.metalness = s.metalness) :
    (matParams_app m s).displacementScale = (matParams_vanilla st).displacementScale ∧
    (m.roughnessMap = none →
      (matParams_app m s).roughness = (matParams_vanilla st).roughness) ∧
    (m.metalnessMap = none →
      (matParams_app m s).metalness = (matParams_vanilla st).metalness) ∧
    (m.roughnessMap ≠ none →
      (matParams_app m s).roughness = 1 ∧ (matParams_vanilla st).roughness = s.roughness) ∧
    (m.metalnessMap ≠ none →
      (matParams_app m s).metalness = 1 ∧ (matParams_vanilla st).metalness = s.metalness) := by
  refine ⟨by simp [matParams_app, matParams_vanilla, hd], ?_, ?_, ?_, ?_⟩
  · intro h
    simp [matParams_app, matParams_vanilla, h, hr]
  · intro h
    simp [matParams_app, matParams_vanilla, h, hm]
  · intro h
    obtain ⟨x, hx⟩ := Option.ne_none_iff_exists.mp h
    exact ⟨by simp [matParams_app, ← hx], by simp [matParams_vanilla, hr]⟩
  · intro h
    obtain ⟨x, hx⟩ := Option.ne_none_iff_exists.mp h
    exact ⟨by simp [matParams_app, ← hx], by simp [matParams_vanilla, hm]⟩

/-- C3 witness for the amended theorem. -/
theorem C3_params_agree_without_maps_witness :
    (matParams_app Slots.empty ⟨ShapeType.cube, 1, 1/20, 1, 1, 0⟩).roughness =
      (matParams_vanilla ⟨Slots.empty, Slots.empty, "cube", 1, 1/20, 1, 1, 0⟩).roughness :=
  (C3_params_agree_without_maps Slots.empty ⟨ShapeType.cube, 1, 1/20, 1, 1, 0⟩
    ⟨Slots.empty, Slots.empty, "cube", 1, 1/20, 1, 1, 0⟩ rfl rfl rfl).2.1 rfl

/-- C6: the geometry kind is drawn from the closed set cube/sphere/plane;
`sphere` selects the sphere geometry, `plane` the plane geometry, and
`cube` — as well as any other string in the vanilla version, via the
default branch — the box geometry, in both implementations. -/
theorem C6_geometry_closed_set :
    (∀ sh : ShapeType, sh = .cube ∨ sh = .sphere ∨ sh = .plane) ∧
    geometryOf_app .sphere = .sphereGeometry 1 128 128 ∧
    geometryOf_app .plane = .planeGeometry 2 2 512 512 ∧
    geometryOf_app .cube = .boxGeometry (3/2) (3/2) (3/2) 128 128 128 ∧
    geometryOf_vanilla ("sphere") = .sphereGeometry 1 128 128 ∧
    geometryOf_vanilla ("plane") = .planeGeometry 2 2 512 512 ∧
    geometryOf_vanilla ("cube") = .boxGeometry (3/2) (3/2) (3/2) 128 128 128 ∧
    (∀ s : String, s ≠ "sphere" → s ≠ "plane" →
      geometryOf_vanilla s = .boxGeometry (3/2) (3/2) (3/2) 128 128 128) := by
  refine ⟨fun sh => by cases sh <;> simp, rfl, rfl, rfl, rfl, rfl, rfl, ?_⟩
  intro s h1 h2
  unfold geometryOf_vanilla
  split <;> simp_all

/-- C6 witness: an out-of-set shape string takes the default box branch. -/
theorem C6_geometry_closed_set_witness :
    geometryOf_vanilla ("torus") = .boxGeometry (3/2) (3/2) (3/2) 128 128 128 :=
  C6_geometry_closed_set.2.2.2.2.2.2.2 ("torus") (by decide) (by decide)

/-- C7: resetting an occupied slot releases exactly that slot's object URL
(component version) or disposes exactly that slot's texture (vanilla
version), sets the slot to null, and leaves every other slot and every
settings field unchanged. -/
theorem C7_reset_occupied_releases (st : AppState) (vst : VanState)
    (t : TextureMapType) (td : TextureData) (tex : Nat)
    (h : st.material.get t = some td) (h' : vst.material.get t = some tex) :
    (resetTexture_app st t).2 = [td.url] ∧
    (resetTexture_app st t).1.material.get t = none ∧
    (∀ t', t' ≠ t →
      (resetTexture_app st t).1.material.get t' = st.material.get t') ∧
    (resetTexture_app st t).1.settings = st.settings ∧
    (resetTexture_vanilla vst t).2 = [tex] ∧
    (resetTexture_vanilla vst t).1.material.get t = none ∧
    (∀ t', t' ≠ t →
      (resetTexture_vanilla vst t).1.material.get t' = vst.material.get t' ∧
      (resetTexture_vanilla vst t).1.textureFiles.get t' = vst.textureFiles.get t') ∧
    (resetTexture_vanilla vst t).1.shape = vst.shape ∧
    (resetTexture_vanilla vst t).1.tiling = vst.tiling ∧
    (resetTexture_vanilla vst t).1.displacementScale = vst.displacementScale ∧
    (resetTexture_vanilla vst t).1.exposure = vst.exposure ∧
    (resetTexture_vanilla vst t).1.roughness = vst.roughness ∧
    (resetTexture_vanilla vst t).1.metalness = vst.metalness := by
  simp only [resetTexture_app, resetTexture_vanilla, h, h']
  refine ⟨?_, ?_, ?_, ?_, ?_, ?_, ?_, ?_, ?_, ?_, ?_, ?_, ?_⟩ <;>
    first
      | trivial
      | exact Slots.get_set_same _ _ _
      | exact fun t' ht' => Slots.get_set_other _ _ ht'
      | exact fun t' ht' => ⟨Slots.get_set_other _ _ ht', Slots.get_set_other _ _ ht'⟩

/-- C7 witness at a concrete occupied state. -/
theorem C7_reset_occupied_releases_witness :
    (resetTexture_app
        ⟨Slots.empty.set .map (some ⟨5, kw ("wood_albedo.png")⟩),
         ⟨ShapeType.cube, 1, 1/20, 1, 1, 0⟩⟩ .map).2 = [5] :=
  (C7_reset_occupied_releases
    ⟨Slots.empty.set .map (some ⟨5, kw ("wood_albedo.png")⟩),
     ⟨ShapeType.cube, 1, 1/20, 1, 1, 0⟩⟩
    ⟨Slots.empty.set .map (some 9), Slots.empty, "cube", 1, 1/20, 1, 1, 0⟩
    .map ⟨5, kw ("wood_albedo.png")⟩ 9 rfl rfl).1

/-- C9: resetting an empty slot is a complete no-op in both versions: the
state is returned unchanged and nothing is revoked or disposed. -/
theorem C9_reset_empty_noop (st : AppState) (vst : VanState) (t : TextureMapType)
    (h : st.material.get t = none) (h' : vst.material.get t = none) :
    resetTexture_app st t = (st, []) ∧ resetTexture_vanilla vst t = (vst, []) := by
  simp only [resetTexture_app, resetTexture_vanilla, h, h']
  refine ⟨?_, ?_⟩ <;> trivial

/-- C9 witness at the all-empty state. -/
theorem C9_reset_empty_noop_witness :
    resetTexture_app ⟨Slots.empty, ⟨ShapeType.cube, 1, 1/20, 1, 1, 0⟩⟩ .aoMap =
      (⟨Slots.empty, ⟨ShapeType.cube, 1, 1/20, 1, 1, 0⟩⟩, []) :=
  (C9_reset_empty_noop ⟨Slots.empty, ⟨ShapeType.cube, 1, 1/20, 1, 1, 0⟩⟩
    ⟨Slots.empty, Slots.empty, "cube", 1, 1/20, 1, 1, 0⟩ .aoMap rfl rfl).1

/-- C8: in the vanilla version, the text-input handler clamps every entered
value to the slider's `[lo, hi]` (and ignores `NaN`), and slider events
carry in-range values by the range input's own semantics; hence each
numeric parameter stays within its slider's bounds after any event
sequence, given an in-range initial value. -/
theorem C8_params_stay_in_bounds (lo hi init : ℚ) (events : List ParamEvent)
    (hlohi : lo ≤ hi) (hinit : lo ≤ init ∧ init ≤ hi)
    (hslider : ∀ v, ParamEvent.slider v ∈ events → lo ≤ v ∧ v ≤ hi) :
    lo ≤ runParamEvents lo hi init events ∧ runParamEvents lo hi init events ≤ hi := by
  unfold runParamEvents
  induction events generalizing init with
  | nil => exact hinit
  | cons e es ih =>
    rw [List.foldl_cons]
    refine ih (paramStep lo hi init e) ?_ fun v hv => hslider v (List.mem_cons_of_mem _ hv)
    cases e with
    | slider v => exact hslider v (List.mem_cons_self _ _)
    | textInput v =>
      cases v with
      | none => exact hinit
      | some v =>
        exact ⟨le_max_left _ _, max_le hlohi (le_trans (min_le_left _ _) le_rfl)⟩

/-- C8 witness: a concrete out-of-bounds text entry gets clamped into
`[0, 1]`. -/
theorem C8_params_stay_in_bounds_witness :
    0 ≤ runParamEvents 0 2 1 [ParamEvent.textInput (some 5)] ∧
    runParamEvents 0 2 1 [ParamEvent.textInput (some 5)] ≤ 2 :=
  C8_params_stay_in_bounds 0 2 1 [ParamEvent.textInput (some 5)]
    (by decide) ⟨by decide, by decide⟩
    (fun v hv => by simp at hv)
